import Mathlib

/-!
Verification of the keyframe compilation and chain composition layer of
`cosmic-time` (`src/keyframes/column.rs`).

Scalar values of Rust type `f32` are modelled as `ℚ`: the layer under
verification never performs arithmetic on them — every value is copied
through unchanged — so an exact field with decidable equality is a
faithful stand-in.
-/

namespace CosmicTime

/-- Modelled from the spec: Movement Timing is "a value describing when a
target should be reached; opaque to this core beyond being carried through
unchanged" (the `MovementType` of `crate`, not under `src/`). Modelled as an
opaque tag. -/
structure MovementType where
  tag : Nat
deriving DecidableEq, Repr

/-- Modelled from the spec: Easing Selection is "a value identifying which
progress-shaping curve to apply; opaque to this core beyond being carried
through unchanged" (the `Ease` of `crate`, not under `src/`). Modelled as an
opaque tag. -/
structure Ease where
  tag : Nat
deriving DecidableEq, Repr

/-- Modelled from the spec: the default easing, "a standard symmetric
(ease in, ease out) curve" — `Linear::InOut.into()` in the source. -/
def linearInOut : Ease := ⟨0⟩

/-- The `iced_native::Padding` value: four edge scalars. -/
structure Padding where
  top : ℚ
  right : ℚ
  bottom : ℚ
  left : ℚ
deriving DecidableEq, Repr

/-- The `iced_native::Length` sizing policy: a definite numeric measure
(`Fixed`) or an indefinite policy (`Fill`, `FillPortion`, `Shrink`). -/
inductive Length where
  | fixed (v : ℚ)
  | fill
  | fillPortion (factor : Nat)
  | shrink
deriving DecidableEq, Repr

/-- Modelled from the spec: `Repeat` (of `crate::keyframes`, not under
`src/`) is the repeat policy `{Never, Forever}`. -/
inductive Repeat where
  | never
  | forever
deriving DecidableEq, Repr

/-- Modelled from the spec: `crate::timeline::Frame` (not under `src/`) is
"the atomic compiled unit — (timing, target value, easing, eager-or-lazy
flag)". -/
structure Frame where
  at_ : MovementType
  value : ℚ
  ease : Ease
  is_lazy : Bool
deriving DecidableEq, Repr

/-- Modelled from the spec: `Frame::eager(timing, value, easing)` "produces
a Frame with `is_lazy=false` and the given value". -/
def Frame.eager (at_ : MovementType) (value : ℚ) (ease : Ease) : Frame :=
  { at_ := at_, value := value, ease := ease, is_lazy := false }

/-- Modelled from the spec: `Frame::lazy(timing, value, easing)` "produces a
Frame with `is_lazy=true`"; the value is a placeholder. -/
def Frame.lazy (at_ : MovementType) (value : ℚ) (ease : Ease) : Frame :=
  { at_ := at_, value := value, ease := ease, is_lazy := true }

/-- Modelled from the spec: `iced_native::widget::Id` — "`new(name)`
constructs a deterministic identifier from a caller-supplied name; equal
names yield equal identifiers. `unique()` constructs an identifier
guaranteed distinct from every other identifier ever produced by
`unique()` in the process." The internal counter state backing `unique()`
is made explicit: each call receives a fresh `Nat` never handed out
before, so two distinct calls carry distinct counters. -/
inductive WidgetId where
  | named (name : String)
  | uniqueTag (counter : Nat)
deriving DecidableEq, Repr

/-- Source `widget::Id::new` — deterministic in the name. -/
def WidgetId.new (name : String) : WidgetId := .named name

/-- Source `widget::Id::unique` — applied to the explicit counter state. -/
def WidgetId.unique (counter : Nat) : WidgetId := .uniqueTag counter

/-- The `Id` of `src/keyframes/column.rs`: a newtype over `widget::Id`. -/
structure Id where
  widgetId : WidgetId
deriving DecidableEq, Repr

/-- Source `Id::new`. -/
def Id.new (name : String) : Id := ⟨WidgetId.new name⟩

/-- Source `Id::unique`, with the counter state explicit. -/
def Id.unique (counter : Nat) : Id := ⟨WidgetId.unique counter⟩

/-- The `Column` builder of `src/keyframes/column.rs`. -/
structure Column where
  at_ : MovementType
  ease : Ease
  spacing : Option ℚ
  padding : Option Padding
  width : Option Length
  height : Option Length
  is_eager : Bool
deriving DecidableEq, Repr

/-- Source `Column::new` — the eager constructor. -/
def Column.new (at_ : MovementType) : Column :=
  { at_ := at_, ease := linearInOut, spacing := none, width := none,
    height := none, padding := none, is_eager := true }

/-- Source `Column::lazy` — the lazy constructor. -/
def Column.lazy (at_ : MovementType) : Column :=
  { at_ := at_, ease := linearInOut, spacing := none, width := none,
    height := none, padding := none, is_eager := false }

/-- Source `Column::spacing` (named `setSpacing` because the field projection
already takes the source name). `impl Into<Pixels>` then `.0` passes the
scalar through unchanged. -/
def Column.setSpacing (c : Column) (spacing : ℚ) : Column :=
  { c with spacing := some spacing }

/-- Source `Column::width`. -/
def Column.setWidth (c : Column) (width : Length) : Column :=
  { c with width := some width }

/-- Source `Column::height`. -/
def Column.setHeight (c : Column) (height : Length) : Column :=
  { c with height := some height }

/-- Source `Column::padding`. -/
def Column.setPadding (c : Column) (padding : Padding) : Column :=
  { c with padding := some padding }

/-- Source `Column::ease`. -/
def Column.setEase (c : Column) (ease : Ease) : Column :=
  { c with ease := ease }

/-- Modelled from the spec: `as_f32` (of `crate::keyframes`, not under
`src/`) resolves a sizing value to a scalar — "width/height sizing values
that denote no fixed measure must convert to `None` even if the field was
set to such a policy; a definite numeric measure is required". -/
def as_f32 (length : Option Length) : Option ℚ :=
  match length with
  | some (Length.fixed v) => some v
  | _ => none

/-- Source `impl From<Column> for Vec<Option<Frame>>` — the compilation of a
descriptor into the 7-slot frame sequence. -/
def Column.toFrames (column : Column) : List (Option Frame) :=
  if column.is_eager then
    [column.spacing.map (fun s => Frame.eager column.at_ s column.ease),
     column.padding.map (fun p => Frame.eager column.at_ p.top column.ease),
     column.padding.map (fun p => Frame.eager column.at_ p.right column.ease),
     column.padding.map (fun p => Frame.eager column.at_ p.bottom column.ease),
     column.padding.map (fun p => Frame.eager column.at_ p.left column.ease),
     (as_f32 column.width).map (fun w => Frame.eager column.at_ w column.ease),
     (as_f32 column.height).map (fun h => Frame.eager column.at_ h column.ease)]
  else
    List.replicate 7 (some (Frame.lazy column.at_ 0 column.ease))

/-- The `Chain` builder of `src/keyframes/column.rs`. -/
structure Chain where
  id : Id
  links : List Column
  repeat_ : Repeat
deriving Repr

/-- Source `Chain::new`. -/
def Chain.new (id : Id) : Chain :=
  { id := id, links := [], repeat_ := Repeat.never }

/-- Source `Chain::with_children`. -/
def Chain.with_children (id : Id) (children : List Column) : Chain :=
  { id := id, links := children, repeat_ := Repeat.never }

/-- Source `Chain::link` — appends one descriptor. -/
def Chain.link (c : Chain) (container : Column) : Chain :=
  { c with links := c.links ++ [container] }

/-- Source `Chain::loop_forever`. -/
def Chain.loop_forever (c : Chain) : Chain :=
  { c with repeat_ := Repeat.forever }

/-- Source `Chain::loop_once`. -/
def Chain.loop_once (c : Chain) : Chain :=
  { c with repeat_ := Repeat.never }

/-- Modelled from the spec: `crate::timeline::Chain` (not under `src/`) is
"a chain value containing an Identifier, a repeat policy, and an ordered
sequence of per-link `[Option<Frame>; 7]` sequences"; its `new` bundles the
three. -/
structure TimelineChain where
  id : WidgetId
  repeat_ : Repeat
  links : List (List (Option Frame))
deriving Repr

/-- Modelled from the spec: `crate::timeline::Chain::new` is the bundling
constructor. -/
def TimelineChain.new (id : WidgetId) (repeat_ : Repeat)
    (links : List (List (Option Frame))) : TimelineChain :=
  { id := id, repeat_ := repeat_, links := links }

/-- Source `impl From<Chain> for crate::timeline::Chain` — maps every link through
compilation, in order, and bundles with id and repeat. -/
def Chain.toTimeline (chain : Chain) : TimelineChain :=
  TimelineChain.new chain.id.widgetId chain.repeat_
    (chain.links.map Column.toFrames)

/-- One builder-setter call on a `Column`, used to quantify over every
sequence of setter calls (every reachable builder state). -/
inductive Setter where
  | spacing (v : ℚ)
  | width (l : Length)
  | height (l : Length)
  | padding (p : Padding)
  | ease (e : Ease)
deriving DecidableEq, Repr

/-- Apply one setter call. -/
def Column.applySetter (c : Column) : Setter → Column
  | .spacing v => c.setSpacing v
  | .width l => c.setWidth l
  | .height l => c.setHeight l
  | .padding p => c.setPadding p
  | .ease e => c.setEase e

/-- Apply a sequence of setter calls, left to right. -/
def Column.applySetters (c : Column) (ss : List Setter) : Column :=
  ss.foldl Column.applySetter c

/-- The eager-mode slot list, written slot by slot following the spec's
per-slot rule (for comparison with the compiled output): a slot holds
`some` iff the field is set, width/height requiring a definite measure. -/
def eagerSlots (c : Column) : List (Option Frame) :=
  [c.spacing.map (fun s => Frame.eager c.at_ s c.ease),
   c.padding.map (fun p => Frame.eager c.at_ p.top c.ease),
   c.padding.map (fun p => Frame.eager c.at_ p.right c.ease),
   c.padding.map (fun p => Frame.eager c.at_ p.bottom c.ease),
   c.padding.map (fun p => Frame.eager c.at_ p.left c.ease),
   (as_f32 c.width).map (fun w => Frame.eager c.at_ w c.ease),
   (as_f32 c.height).map (fun h => Frame.eager c.at_ h c.ease)]

lemma applySetter_at (c : Column) (s : Setter) : (c.applySetter s).at_ = c.at_ := by
  cases s <;> rfl

lemma applySetter_is_eager (c : Column) (s : Setter) :
    (c.applySetter s).is_eager = c.is_eager := by
  cases s <;> rfl

lemma applySetters_at (c : Column) (ss : List Setter) :
    (c.applySetters ss).at_ = c.at_ := by
  induction ss generalizing c with
  | nil => rfl
  | cons s ss ih => simpa [Column.applySetters, List.foldl_cons, applySetter_at]
      using (ih (c.applySetter s)).trans (applySetter_at c s)

lemma applySetters_is_eager (c : Column) (ss : List Setter) :
    (c.applySetters ss).is_eager = c.is_eager := by
  induction ss generalizing c with
  | nil => rfl
  | cons s ss ih => simpa [Column.applySetters, List.foldl_cons]
      using (ih (c.applySetter s)).trans (applySetter_is_eager c s)

lemma toFrames_of_eager (c : Column) (h : c.is_eager = true) :
    c.toFrames = eagerSlots c := by
  simp [Column.toFrames, eagerSlots, h]

lemma toFrames_of_lazy (c : Column) (h : c.is_eager = false) :
    c.toFrames = List.replicate 7 (some (Frame.lazy c.at_ 0 c.ease)) := by
  simp [Column.toFrames, h]

lemma mem_toFrames_eager (c : Column) (h : c.is_eager = true) (fr : Frame)
    (hm : some fr ∈ c.toFrames) :
    fr.is_lazy = false ∧ fr.at_ = c.at_ ∧ fr.ease = c.ease := by
  rw [toFrames_of_eager c h] at hm
  simp only [eagerSlots, List.mem_cons, List.not_mem_nil, or_false] at hm
  rcases hm with h1 | h1 | h1 | h1 | h1 | h1 | h1 <;>
    (obtain ⟨a, -, rfl⟩ := Option.map_eq_some'.mp h1.symm; exact ⟨rfl, rfl, rfl⟩)

/-- Claim C1: for every `Column`, the compiled sequence has exactly 7
entries and uses the fixed slot-to-index mapping 0=spacing, 1=padding.top,
2=padding.right, 3=padding.bottom, 4=padding.left, 5=width, 6=height, in
both eager and lazy modes: in eager mode each index holds exactly the
compiled form of its own field, and in lazy mode every index holds the
uniform lazy frame. -/
theorem slot_index_contract (c : Column) :
    c.toFrames.length = 7 ∧
    c.toFrames[0]? = some (if c.is_eager then
      c.spacing.map (fun s => Frame.eager c.at_ s c.ease)
      else some (Frame.lazy c.at_ 0 c.ease)) ∧
    c.toFrames[1]? = some (if c.is_eager then
      c.padding.map (fun p => Frame.eager c.at_ p.top c.ease)
      else some (Frame.lazy c.at_ 0 c.ease)) ∧
    c.toFrames[2]? = some (if c.is_eager then
      c.padding.map (fun p => Frame.eager c.at_ p.right c.ease)
      else some (Frame.lazy c.at_ 0 c.ease)) ∧
    c.toFrames[3]? = some (if c.is_eager then
      c.padding.map (fun p => Frame.eager c.at_ p.bottom c.ease)
      else some (Frame.lazy c.at_ 0 c.ease)) ∧
    c.toFrames[4]? = some (if c.is_eager then
      c.padding.map (fun p => Frame.eager c.at_ p.left c.ease)
      else some (Frame.lazy c.at_ 0 c.ease)) ∧
    c.toFrames[5]? = some (if c.is_eager then
      (as_f32 c.width).map (fun w => Frame.eager c.at_ w c.ease)
      else some (Frame.lazy c.at_ 0 c.ease)) ∧
    c.toFrames[6]? = some (if c.is_eager then
      (as_f32 c.height).map (fun h => Frame.eager c.at_ h c.ease)
      else some (Frame.lazy c.at_ 0 c.ease)) := by
  cases h : c.is_eager <;>
    simp [Column.toFrames, h, List.replicate, List.getElem?_cons]

/-- Claim C6: `Chain::new` yields repeat policy `Never` and an empty link
list; `loop_forever` sets `Forever`, `loop_once` sets `Never`, and the last
call wins: `loop_forever` followed by `loop_once` yields `Never`. -/
theorem chain_repeat_policy (i : Id) (ch : Chain) :
    (Chain.new i).repeat_ = Repeat.never ∧
    (Chain.new i).links = [] ∧
    ch.loop_forever.repeat_ = Repeat.forever ∧
    ch.loop_once.repeat_ = Repeat.never ∧
    ch.loop_forever.loop_once.repeat_ = Repeat.never :=
  ⟨rfl, rfl, rfl, rfl, rfl⟩

/-- Claim C8: every builder setter is a total pure field assignment, and
compilation of any `Column` (7 slots for every state, eager or lazy) and
conversion of any `Chain` (one compiled group per link) are total functions
over every builder state — there is no error branch and no failing
path. -/
theorem operations_total (c : Column) (v : ℚ) (l : Length) (p : Padding)
    (e : Ease) (ch : Chain) (col : Column) :
    c.setSpacing v = { c with spacing := some v } ∧
    c.setWidth l = { c with width := some l } ∧
    c.setHeight l = { c with height := some l } ∧
    c.setPadding p = { c with padding := some p } ∧
    c.setEase e = { c with ease := e } ∧
    ch.link col = { ch with links := ch.links ++ [col] } ∧
    ch.loop_forever = { ch with repeat_ := Repeat.forever } ∧
    ch.loop_once = { ch with repeat_ := Repeat.never } ∧
    c.toFrames.length = 7 ∧
    ch.toTimeline.links.length = ch.links.length := by
  refine ⟨rfl, rfl, rfl, rfl, rfl, rfl, rfl, rfl, ?_, ?_⟩
  · cases h : c.is_eager <;> simp [Column.toFrames, h]
  · simp [Chain.toTimeline, TimelineChain.new]

/-- Claim C10: each setter on `Column` modifies only its own field,
leaving the timing, the `is_eager` flag and every other field unchanged;
calling the same setter again overwrites the previous value, so the last
call determines the compiled output. -/
theorem setter_frame_effect (c : Column) (v w : ℚ) (l m : Length)
    (p q : Padding) (e f : Ease) :
    c.setSpacing v = { c with spacing := some v } ∧
    c.setWidth l = { c with width := some l } ∧
    c.setHeight l = { c with height := some l } ∧
    c.setPadding p = { c with padding := some p } ∧
    c.setEase e = { c with ease := e } ∧
    (c.setSpacing v).setSpacing w = c.setSpacing w ∧
    (c.setWidth l).setWidth m = c.setWidth m ∧
    (c.setHeight l).setHeight m = c.setHeight m ∧
    (c.setPadding p).setPadding q = c.setPadding q ∧
    (c.setEase e).setEase f = c.setEase f ∧
    ((c.setSpacing v).setSpacing w).toFrames = (c.setSpacing w).toFrames :=
  ⟨rfl, rfl, rfl, rfl, rfl, rfl, rfl, rfl, rfl, rfl, rfl⟩

/-- Claim C2: every `Column` built by `Column::new` followed by any
sequence of setter calls compiles slot by slot to `some` exactly when the
field is set (width/height additionally requiring a definite numeric
measure, indefinite policies dropping to `none`); every emitted frame has
`is_lazy = false` and carries the descriptor's timing and easing; and the
concrete descriptor with `spacing 10` and `width (Fixed 50)` compiles to
values `[some 10, none, none, none, none, some 50, none]`. -/
theorem eager_compilation (t : MovementType) (ss : List Setter) :
    ((Column.new t).applySetters ss).toFrames =
      eagerSlots ((Column.new t).applySetters ss) ∧
    (∀ fr : Frame, some fr ∈ ((Column.new t).applySetters ss).toFrames →
      fr.is_lazy = false ∧ fr.at_ = t ∧
      fr.ease = ((Column.new t).applySetters ss).ease) ∧
    (((Column.new t).setSpacing 10).setWidth (Length.fixed 50)).toFrames.map
        (Option.map Frame.value) =
      [some 10, none, none, none, none, some 50, none] := by
  have he : ((Column.new t).applySetters ss).is_eager = true :=
    applySetters_is_eager (Column.new t) ss
  have ha : ((Column.new t).applySetters ss).at_ = t :=
    applySetters_at (Column.new t) ss
  refine ⟨toFrames_of_eager _ he, ?_, ?_⟩
  · intro fr hm
    obtain ⟨h1, h2, h3⟩ := mem_toFrames_eager _ he fr hm
    exact ⟨h1, h2.trans ha, h3⟩
  · rfl

/-- Claim C3: every `Column` built by `Column::lazy` followed by any
sequence of setter calls (including none) compiles to exactly 7 `some`
entries, each the lazy frame with placeholder value 0 carrying the
descriptor's timing and easing. -/
theorem lazy_compilation (t : MovementType) (ss : List Setter) :
    ((Column.lazy t).applySetters ss).toFrames =
      List.replicate 7
        (some (Frame.lazy t 0 ((Column.lazy t).applySetters ss).ease)) ∧
    (∀ fr : Frame, some fr ∈ ((Column.lazy t).applySetters ss).toFrames →
      fr.is_lazy = true ∧ fr.value = 0 ∧ fr.at_ = t ∧
      fr.ease = ((Column.lazy t).applySetters ss).ease) := by
  have he : ((Column.lazy t).applySetters ss).is_eager = false :=
    applySetters_is_eager (Column.lazy t) ss
  have ha : ((Column.lazy t).applySetters ss).at_ = t :=
    applySetters_at (Column.lazy t) ss
  have hfr := toFrames_of_lazy _ he
  rw [ha] at hfr
  refine ⟨hfr, ?_⟩
  intro fr hm
  rw [hfr] at hm
  have := List.eq_of_mem_replicate hm
  obtain rfl : fr = Frame.lazy t 0 ((Column.lazy t).applySetters ss).ease :=
    Option.some_injective _ this
  exact ⟨rfl, rfl, rfl, rfl⟩

/-- Claim C5: converting a `Chain` maps every link through `Column`
compilation in insertion order, preserving that order, bundled with the
chain's id and repeat policy; a chain linked with `[A, B, C]` yields the
compiled groups of A, B, C in that order, and the empty chain converts to
zero links with the given id and `Never` repeat. -/
theorem chain_conversion (ch : Chain) (i : Id) (a b c : Column) :
    ch.toTimeline.id = ch.id.widgetId ∧
    ch.toTimeline.repeat_ = ch.repeat_ ∧
    ch.toTimeline.links = ch.links.map Column.toFrames ∧
    ((((Chain.new i).link a).link b).link c).toTimeline.links =
      [a.toFrames, b.toFrames, c.toFrames] ∧
    (Chain.new i).toTimeline = TimelineChain.new i.widgetId Repeat.never [] :=
  ⟨rfl, rfl, rfl, rfl, rfl⟩

/-- Claim C7: `Id::new` is deterministic in the name — equal names yield
equal identifiers, and distinct names yield distinct ones — while two
distinct calls to `Id::unique` (distinct counter states) are never
equal. -/
theorem id_construction (s u : String) (m n : Nat) (h : m ≠ n) :
    (Id.new s = Id.new u ↔ s = u) ∧ Id.unique m ≠ Id.unique n := by
  constructor
  · simp [Id.new, WidgetId.new, Id.mk.injEq, WidgetId.named.injEq]
  · simp [Id.unique, WidgetId.unique, Id.mk.injEq, WidgetId.uniqueTag.injEq, h]

/-- Witness for C7 at concrete inputs: names "x"/"x" and counters 0/1. -/
theorem id_construction_witness :
    (0 : Nat) ≠ 1 ∧
    ((Id.new ("x") = Id.new ("x") ↔ ("x" : String) = ("x")) ∧
      Id.unique 0 ≠ Id.unique 1) :=
  ⟨by decide, id_construction ("x") ("x") 0 1 (by decide)⟩

/-- Claim C4, counterexample: an eager `Column` with exactly one builder
field set — the padding field — compiles to four `some` entries (slots
1–4), not exactly one, refuting the claim that any single set field yields
exactly one `some` entry. -/
theorem single_field_one_some_cex :
    (((Column.new ⟨0⟩).setPadding ⟨1, 2, 3, 4⟩).toFrames.countP
        Option.isSome = 4) ∧
    ¬ (((Column.new ⟨0⟩).setPadding ⟨1, 2, 3, 4⟩).toFrames.countP
        Option.isSome = 1) := by
  constructor <;> decide

/-- Claim C4 as amended: for an eager `Column` with exactly one builder
field set, if that field is spacing, or width/height set to a definite
`Fixed` measure, compilation yields exactly one `some` at that field's
fixed index and `none` elsewhere; if the one field set is padding,
compilation yields `some` at all four padding indices 1–4 (populated from
its top, right, bottom, left) and `none` elsewhere. -/
theorem single_field_one_some_amended (t : MovementType) (v : ℚ)
    (p : Padding) :
    ((Column.new t).setSpacing v).toFrames =
      [some (Frame.eager t v linearInOut),
       none, none, none, none, none, none] ∧
    ((Column.new t).setWidth (Length.fixed v)).toFrames =
      [none, none, none, none, none,
       some (Frame.eager t v linearInOut), none] ∧
    ((Column.new t).setHeight (Length.fixed v)).toFrames =
      [none, none, none, none, none, none,
       some (Frame.eager t v linearInOut)] ∧
    ((Column.new t).setPadding p).toFrames =
      [none,
       some (Frame.eager t p.top linearInOut),
       some (Frame.eager t p.right linearInOut),
       some (Frame.eager t p.bottom linearInOut),
       some (Frame.eager t p.left linearInOut),
       none, none] :=
  ⟨rfl, rfl, rfl, rfl⟩

/-- Claim C9: in eager compilation the four padding slots are driven by the
single optional padding field — each of slots 1–4 is the image of that one
field under `Option.map`, so they are all `some` or all `none` together,
and when present they are populated from the padding's top, right, bottom
and left, all four sharing the descriptor's timing and easing. -/
theorem padding_slots_coupled (t : MovementType) (ss : List Setter) :
    ((Column.new t).applySetters ss).toFrames[1]? =
      some (((Column.new t).applySetters ss).padding.map
        (fun p => Frame.eager t p.top ((Column.new t).applySetters ss).ease)) ∧
    ((Column.new t).applySetters ss).toFrames[2]? =
      some (((Column.new t).applySetters ss).padding.map
        (fun p => Frame.eager t p.right ((Column.new t).applySetters ss).ease)) ∧
    ((Column.new t).applySetters ss).toFrames[3]? =
      some (((Column.new t).applySetters ss).padding.map
        (fun p => Frame.eager t p.bottom ((Column.new t).applySetters ss).ease)) ∧
    ((Column.new t).applySetters ss).toFrames[4]? =
      some (((Column.new t).applySetters ss).padding.map
        (fun p => Frame.eager t p.left ((Column.new t).applySetters ss).ease)) ∧
    (((Column.new t).applySetters ss).padding = none ↔
      (((Column.new t).applySetters ss).toFrames[1]? = some none ∧
       ((Column.new t).applySetters ss).toFrames[2]? = some none ∧
       ((Column.new t).applySetters ss).toFrames[3]? = some none ∧
       ((Column.new t).applySetters ss).toFrames[4]? = some none)) := by
  have he : ((Column.new t).applySetters ss).is_eager = true :=
    applySetters_is_eager (Column.new t) ss
  have ha : ((Column.new t).applySetters ss).at_ = t :=
    applySetters_at (Column.new t) ss
  have hfr := toFrames_of_eager _ he
  set c := (Column.new t).applySetters ss with hc
  rw [← ha, hfr]
  refine ⟨rfl, rfl, rfl, rfl, ?_⟩
  cases h : c.padding <;> simp [eagerSlots, h]

end CosmicTime
